import Mathlib

/-!
Verification of the cart/order domain aggregates and the dependency
wiring layer (registry, auto-discovery, resolver) of a small modular
FastAPI e-commerce backend.

The embedding translates the Python sources statement by statement:

* `app/core/domain/cart.py`       → `CartItem`, `Cart.add_item_run`,
  `Cart.add_item`, `Cart.total_amount`
* `app/core/domain/order/*.py`    → `OrderStatus`, `OrderItem`,
  `ShippingAddress`, `Order.confirm`, `Order.cancel`
* `app/infra/wiring/registry.py`  → `DependencyRegistry`
* `app/infra/wiring/dependency_resolver.py` → `resolveDep`,
  `createParamsWith`, `resolveServiceParamsWith`, …
* `app/infra/wiring/factories.py` → `get_repository`
* `app/infra/db/repositories/cart_repository_impl.py`
                                  → `CartRepositoryImpl.save`, `.get_by_user_id`
* `app/core/services/cart_service.py` → `CartService.add_item`, `.get_cart`

Python `int` is modelled by `Int` (arbitrary precision, no overflow),
raised exceptions by `Except String` / an `Option String` error
component, and `dict` by an insertion-ordered association list with
first-key update (`dictGet` / `dictSet`).
-/

/-! ## Cart domain (`app/core/domain/cart.py`) -/

/-- Value object `CartItem(product_id, quantity, unit_price)` —
`@dataclass(frozen=True)` in the source, hence an immutable structure. -/
structure CartItem where
  product_id : String
  quantity : Int
  unit_price : Int
deriving DecidableEq, Repr

/-- Aggregate root `Cart(user_id, items)`. -/
structure Cart where
  user_id : String
  items : List CartItem
deriving DecidableEq, Repr

/-- Statement-by-statement translation of `Cart.add_item`, viewed as a
state transformer: the first component is the raised exception message
(if any), the second the state of the cart after the call.  The
source raises `ValueError("quantity must be positive")` *before* the
single assignment to `self.items`, so on that path the cart state is
the unchanged input.  The loop over `self.items` builds `updated_items`
by replacing every entry whose `product_id` matches with a fresh
`CartItem` of incremented quantity and the *existing* entry's
`unit_price`; the passed `unit_price` is used only when no entry
matched (`found` stays false) and a new entry is appended. -/
def Cart.add_item_run (c : Cart) (product_id : String) (unit_price quantity : Int) :
    Option String × Cart :=
  if quantity ≤ 0 then
    (some "quantity must be positive", c)
  else
    let updated_items := c.items.map (fun item =>
      if item.product_id = product_id then
        { product_id := item.product_id
          quantity := item.quantity + quantity
          unit_price := item.unit_price }
      else item)
    let found := c.items.any (fun item => item.product_id = product_id)
    let new_items :=
      if found then updated_items
      else updated_items ++ [{ product_id := product_id
                               quantity := quantity
                               unit_price := unit_price }]
    (none, { c with items := new_items })

/-- `Cart.add_item` in exception-monad form: `.error` is the raised
`ValueError`, `.ok` the mutated cart. -/
def Cart.add_item (c : Cart) (product_id : String) (unit_price quantity : Int) :
    Except String Cart :=
  match c.add_item_run product_id unit_price quantity with
  | (some e, _) => Except.error e
  | (none, c1) => Except.ok c1

/-- `Cart.total_amount`: `sum(item.unit_price * item.quantity for item in self.items)`. -/
def Cart.total_amount (c : Cart) : Int :=
  (c.items.map (fun item => item.unit_price * item.quantity)).sum

/-! ## Sequences of `add_item` calls (spec side of claim C1) -/

/-- One `add_item` invocation, in the argument order of the source:
`add_item(product_id, unit_price, quantity)`. -/
structure AddCall where
  product_id : String
  unit_price : Int
  quantity : Int
deriving DecidableEq, Repr

/-- Run a sequence of `add_item` calls left to right; the first raised
exception aborts the sequence. -/
def applyCalls : List AddCall → Cart → Except String Cart
  | [], c => Except.ok c
  | a :: rest, c =>
    match c.add_item a.product_id a.unit_price a.quantity with
    | Except.ok c1 => applyCalls rest c1
    | Except.error e => Except.error e

/-- Worker for `dedupFirst`: drops every element already in `seen`. -/
def dedupFirstAux : List String → List String → List String
  | [], _ => []
  | p :: rest, seen =>
    if p ∈ seen then dedupFirstAux rest seen
    else p :: dedupFirstAux rest (p :: seen)

/-- The distinct elements of a list, keeping first occurrences in order. -/
def dedupFirst (l : List String) : List String :=
  dedupFirstAux l []

/-- The unit price passed in the first `add_item` call for product `p`
(`0` when no call mentions `p`). -/
def firstUnitPrice (calls : List AddCall) (p : String) : Int :=
  match calls.find? (fun a => a.product_id = p) with
  | some a => a.unit_price
  | none => 0

/-- The sum of the quantities passed for product `p` over the call sequence. -/
def totalQuantity (calls : List AddCall) (p : String) : Int :=
  ((calls.filter (fun a => a.product_id = p)).map AddCall.quantity).sum

/-- The total the specification predicts: sum over distinct product ids
of (total quantity added for that id) × (unit price of the first call
for that id). -/
def specTotal (calls : List AddCall) : Int :=
  ((dedupFirst (calls.map AddCall.product_id)).map
    (fun p => totalQuantity calls p * firstUnitPrice calls p)).sum

/-- The item list the merge semantics of `add_item` produces for a call
sequence applied to an empty cart: one entry per distinct product id in
first-occurrence order, carrying the summed quantity and the first unit
price. -/
def canonicalItems (calls : List AddCall) : List CartItem :=
  (dedupFirst (calls.map AddCall.product_id)).map
    (fun p => { product_id := p
                quantity := totalQuantity calls p
                unit_price := firstUnitPrice calls p })

/-! ## Order domain (`app/core/domain/order/`) -/

/-- Enumeration `OrderStatus` of `order_status.py`. -/
inductive OrderStatus where
  | pending
  | confirmed
  | shipped
  | delivered
  | cancelled
deriving DecidableEq, Repr

/-- Entity `OrderItem` of `order_item.py`. -/
structure OrderItem where
  item_id : String
  product_id : String
  quantity : Int
  unit_price : Int
deriving DecidableEq, Repr

/-- Value object `ShippingAddress` of `shipping_address.py`. -/
structure ShippingAddress where
  street : String
  city : String
  postal_code : String
  country : String
deriving DecidableEq, Repr

/-- Aggregate root `Order` of `order.py`; `shipping_address` defaults to
`None`, `status` to `PENDING`. -/
structure Order where
  order_id : String
  user_id : String
  items : List OrderItem
  shipping_address : Option ShippingAddress
  status : OrderStatus
deriving DecidableEq, Repr

/-- `Order.confirm`: raises unless the status is `PENDING` (`if
self.status != OrderStatus.PENDING`), the item list is non-empty
(`if not self.items`) and a shipping address is set (`if not
self.shipping_address`); on success sets `status = CONFIRMED`. -/
def Order.confirm (o : Order) : Except String Order :=
  if o.status ≠ OrderStatus.pending then
    Except.error "只能確認待處理的訂單"
  else if o.items = [] then
    Except.error "訂單必須包含至少一個項目"
  else if o.shipping_address = none then
    Except.error "訂單必須有配送地址"
  else
    Except.ok { o with status := OrderStatus.confirmed }

/-- `Order.cancel`: raises when the status is `DELIVERED` or
`CANCELLED`; otherwise sets `status = CANCELLED`. -/
def Order.cancel (o : Order) : Except String Order :=
  if o.status = OrderStatus.delivered ∨ o.status = OrderStatus.cancelled then
    Except.error "已送達或已取消的訂單無法取消"
  else
    Except.ok { o with status := OrderStatus.cancelled }

/-! ## Python `dict` as an insertion-ordered association list -/

/-- `d.get(k)`: the value at the first (unique, for a real `dict`)
occurrence of key `k`. -/
def dictGet {α : Type} : List (String × α) → String → Option α
  | [], _ => none
  | (k0, v0) :: rest, k => if k0 = k then some v0 else dictGet rest k

/-- `d[k] = v`: update in place when the key exists (keeping its
position), append otherwise. -/
def dictSet {α : Type} : List (String × α) → String → α → List (String × α)
  | [], k, v => [(k, v)]
  | (k0, v0) :: rest, k, v =>
    if k0 = k then (k0, v) :: rest else (k0, v0) :: dictSet rest k v

/-! ## Dependency registry (`app/infra/wiring/registry.py`)

Python classes are identified by their names (`String`).  The result of
the module-scanning functions `discover_repositories()` and
`discover_services()` of `auto_discovery.py` depends on the files
present on disk, so it enters the model as an explicit parameter
`DiscoveryResult` that every claim quantifies over. -/

/-- What one run of the discovery scan returns: the
contract-name → implementation-name `dict` of `discover_repositories()`
and the service list of `discover_services()`. -/
structure DiscoveryResult where
  repos : List (String × String)
  services : List String
deriving DecidableEq, Repr

/-- State of `DependencyRegistry`: `_repository_map`, `_services`,
`_initialized`. -/
structure DependencyRegistry where
  repository_map : List (String × String)
  services : List String
  initialized : Bool
deriving DecidableEq, Repr

/-- `DependencyRegistry.__init__`: empty map, empty services, flag down. -/
def DependencyRegistry.new : DependencyRegistry :=
  { repository_map := [], services := [], initialized := false }

/-- `DependencyRegistry.initialize`: returns unchanged when the guard
flag is set; otherwise *replaces* `_repository_map` and `_services`
wholesale with the discovery results and raises the flag. -/
def DependencyRegistry.initializeReg (disc : DiscoveryResult)
    (r : DependencyRegistry) : DependencyRegistry :=
  if r.initialized then r
  else { repository_map := disc.repos
         services := disc.services
         initialized := true }

/-- `DependencyRegistry.register_repository`: unconditional
`self._repository_map[interface] = implementation`; note it neither
checks nor sets `_initialized`. -/
def DependencyRegistry.register_repository (r : DependencyRegistry)
    (interface implementation : String) : DependencyRegistry :=
  { r with repository_map := dictSet r.repository_map interface implementation }

/-- `DependencyRegistry.get_repository_implementation`: lazily
initializes, then a pure `dict.get`.  Returns the lookup result
together with the registry state after the call. -/
def DependencyRegistry.get_repository_implementation (disc : DiscoveryResult)
    (r : DependencyRegistry) (interface : String) :
    Option String × DependencyRegistry :=
  let r1 := DependencyRegistry.initializeReg disc r
  (dictGet r1.repository_map interface, r1)

/-! ## Dependency resolver (`app/infra/wiring/dependency_resolver.py`)

Constructor signatures (`inspect.signature(cls.__init__)`, with `self`
dropped) enter the model as an environment mapping a class name to its
parameter list; a parameter is a name together with its optional type
annotation (`none` = `inspect.Parameter.empty`).  Object identity is
modelled by `Obj`: the shared session instance `self.session`, or a
constructed instance tagged with a fresh allocation number — two
instances are reference-equal exactly when their `Obj` values are
equal.  Python's unbounded recursion is modelled with explicit fuel;
exhausted fuel yields `none` (the source would overflow the stack
there). -/

/-- Constructor parameter lists of the Python classes in play,
excluding `self`. -/
structure ResolverEnv where
  ctorParams : String → List (String × Option String)

/-- A runtime object reference. -/
inductive Obj where
  | session
  | inst (id : Nat)
deriving DecidableEq, Repr

/-- Mutable state of one `DependencyResolver` (plus the process-global
registry it reaches through `get_registry()`): the `_cache` dict, a
fresh-allocation counter, and the registry. -/
structure RState where
  reg : DependencyRegistry
  cache : List (String × Obj)
  nextId : Nat
deriving DecidableEq, Repr

/-- The parameter loop of `_create_repository_instance`: `Session`
parameters are bound to `self.session`; any other annotated parameter
is resolved with `_resolve_dependency` (passed in as `resolve`) and
bound only when resolution produced an instance; unannotated
parameters are skipped. -/
def createParamsWith (resolve : String → RState → Option Obj × RState) :
    List (String × Option String) → RState → List (String × Obj) × RState
  | [], s => ([], s)
  | (n, some t) :: rest, s =>
    if t = "Session" then
      let r := createParamsWith resolve rest s
      ((n, Obj.session) :: r.1, r.2)
    else
      let d := resolve t s
      let r := createParamsWith resolve rest d.2
      (match d.1 with
       | some v => (n, v) :: r.1
       | none => r.1, r.2)
  | (_, none) :: rest, s => createParamsWith resolve rest s

/-- `_create_repository_instance(impl_class)`: resolve the constructor
parameters, then `impl_class(**params)` — a fresh object. -/
def createRepositoryInstanceWith (resolve : String → RState → Option Obj × RState)
    (env : ResolverEnv) (impl : String) (s : RState) : Obj × RState :=
  let r := createParamsWith resolve (env.ctorParams impl) s
  (Obj.inst r.2.nextId, { r.2 with nextId := r.2.nextId + 1 })

/-- `_resolve_dependency(dependency_type)`: cache hit → cached
instance; `Session` → the held session (not cached); otherwise ask the
(lazily initializing) registry, and when an implementation is mapped,
construct it recursively and memoize it under the *declared* type. -/
def resolveDep (env : ResolverEnv) (disc : DiscoveryResult) :
    Nat → String → RState → Option Obj × RState
  | 0, _, s => (none, s)
  | fuel + 1, t, s =>
    match dictGet s.cache t with
    | some v => (some v, s)
    | none =>
      if t = "Session" then (some Obj.session, s)
      else
        let g := DependencyRegistry.get_repository_implementation disc s.reg t
        match g.1 with
        | some impl =>
          let r := createRepositoryInstanceWith (resolveDep env disc fuel) env impl
            { s with reg := g.2 }
          (some r.1, { r.2 with cache := dictSet r.2.cache t r.1 })
        | none => (none, { s with reg := g.2 })

/-- The parameter loop of `resolve_service_dependencies`: every
annotated parameter goes through `_resolve_dependency`; the binding is
recorded only when an instance came back. -/
def resolveServiceParamsWith (resolve : String → RState → Option Obj × RState) :
    List (String × Option String) → RState → List (String × Obj) × RState
  | [], s => ([], s)
  | (n, some t) :: rest, s =>
    let d := resolve t s
    let r := resolveServiceParamsWith resolve rest d.2
    (match d.1 with
     | some v => (n, v) :: r.1
     | none => r.1, r.2)
  | (_, none) :: rest, s => resolveServiceParamsWith resolve rest s

/-- `DependencyResolver.resolve_service_dependencies(service_class)`. -/
def resolve_service_dependencies (env : ResolverEnv) (disc : DiscoveryResult)
    (fuel : Nat) (service_class : String) (s : RState) :
    List (String × Obj) × RState :=
  resolveServiceParamsWith (resolveDep env disc fuel) (env.ctorParams service_class) s

/-! ## Generic factory (`app/infra/wiring/factories.py`) -/

/-- `get_repository(repository_type, session)`: asks the registry for
the implementation class and raises
`ValueError(f"No implementation found for repository: ...")` when the
contract is unmapped; otherwise builds the instance with a fresh
resolver. -/
def get_repository (env : ResolverEnv) (disc : DiscoveryResult) (fuel : Nat)
    (reg : DependencyRegistry) (repository_type : String) :
    Except String (Obj × RState) :=
  let g := DependencyRegistry.get_repository_implementation disc reg repository_type
  match g.1 with
  | none =>
    Except.error ("No implementation found for repository: " ++ repository_type
      ++ ". Make sure " ++ repository_type ++ "Impl exists in infra/db/repositories/")
  | some impl =>
    Except.ok (createRepositoryInstanceWith (resolveDep env disc fuel) env impl
      { reg := g.2, cache := [], nextId := 0 })

/-- A concrete constructor environment for exercising the resolver: a
service with two constructor parameters declaring the same repository
contract, whose implementation takes the shared session. -/
def twoRepoEnv : ResolverEnv where
  ctorParams cls :=
    if cls = "TwoRepoService" then
      [("repo_a", some "CartRepository"), ("repo_b", some "CartRepository")]
    else if cls = "CartRepositoryImpl" then
      [("session", some "Session")]
    else []

/-- A fresh resolver over an already-initialized registry mapping
`CartRepository ↦ CartRepositoryImpl`. -/
def twoRepoState : RState where
  reg := { repository_map := [("CartRepository", "CartRepositoryImpl")]
           services := []
           initialized := true }
  cache := []
  nextId := 0

/-! ## Cart persistence (`cart_repository_impl.py`, `cart_service.py`)

The `cart_items` table is a list of rows in insertion (autoincrement
primary key) order; `find(user_id=...)`/`delete_by(user_id=...)` filter
on the `user_id` column. -/

/-- One row of the `cart_items` table (`CartItemModel`). -/
structure CartItemRow where
  user_id : String
  product_id : String
  quantity : Int
  unit_price : Int
deriving DecidableEq, Repr

/-- The `cart_items` table. -/
abbrev CartDb := List CartItemRow

/-- `CartRepositoryImpl.get_by_user_id`: query the user's rows, return
`None` when there are none (`if not rows`), otherwise rebuild the
domain `Cart` from the rows. -/
def CartRepositoryImpl.get_by_user_id (db : CartDb) (user_id : String) : Option Cart :=
  let rows := db.filter (fun r => r.user_id = user_id)
  if rows = [] then none
  else some { user_id := user_id
              items := rows.map (fun r =>
                { product_id := r.product_id
                  quantity := r.quantity
                  unit_price := r.unit_price }) }

/-- `CartRepositoryImpl.save`: delete the user's existing rows
(`delete_by(user_id=cart.user_id)`), then insert one row per cart item
(`save_all`, guarded by `if cart_items:` so an empty cart inserts
nothing). -/
def CartRepositoryImpl.save (db : CartDb) (cart : Cart) : CartDb :=
  let db1 := db.filter (fun r => ¬ r.user_id = cart.user_id)
  db1 ++ cart.items.map (fun item =>
    { user_id := cart.user_id
      product_id := item.product_id
      quantity := item.quantity
      unit_price := item.unit_price })

/-- `CartService.get_cart`: `self.cart_repo.get_by_user_id(user_id) or
Cart(user_id=user_id)` — a (truthy) stored cart when present, otherwise
a fresh empty one. -/
def CartService.get_cart (db : CartDb) (user_id : String) : Cart :=
  match CartRepositoryImpl.get_by_user_id db user_id with
  | some cart => cart
  | none => { user_id := user_id, items := [] }

/-- `CartService.add_item`: reject non-positive quantity before
touching the repository; otherwise load (or create) the cart, mutate
it, save it.  The result carries the returned cart and the table state
after the call; an exception leaves the table untouched. -/
def CartService.add_item (db : CartDb) (user_id product_id : String)
    (unit_price quantity : Int) : Except String (Cart × CartDb) :=
  if quantity ≤ 0 then Except.error "quantity must be positive"
  else
    let cart :=
      match CartRepositoryImpl.get_by_user_id db user_id with
      | some c => c
      | none => { user_id := user_id, items := [] }
    match cart.add_item product_id unit_price quantity with
    | Except.error e => Except.error e
    | Except.ok cart1 => Except.ok (cart1, CartRepositoryImpl.save db cart1)

/-! ## Interleaved first access to the registry (claim C9)

`DependencyRegistry.initialize` has no lock: its guard is a plain read
of `self._initialized` followed, much later (module scanning performs
imports and disk IO), by the write `self._initialized = True`.  Two
threads running the method concurrently are modelled by giving each
thread a program counter over the method's two atomic phases:

* phase 0 — evaluate `if self._initialized: return`;
* phase 1 — run the discovery scan (counted) and set the flag.

Any schedule (list of thread choices) interleaves these phases. -/

/-- Shared registry flag, a counter of discovery-scan executions, and
the two threads' positions inside `initialize` (2 = returned). -/
structure RaceState where
  initialized : Bool
  scanCount : Nat
  pc1 : Nat
  pc2 : Nat
deriving DecidableEq, Repr

/-- Both threads are about to enter `initialize` of a fresh registry. -/
def raceInit : RaceState :=
  { initialized := false, scanCount := 0, pc1 := 0, pc2 := 0 }

/-- One atomic step of `initialize` by the thread at `pc`, returning
the new program counter and shared state. -/
def threadStep (pc : Nat) (s : RaceState) : Nat × RaceState :=
  match pc with
  | 0 => if s.initialized then (2, s) else (1, s)
  | 1 => (2, { s with scanCount := s.scanCount + 1, initialized := true })
  | _ => (pc, s)

/-- Run one step of thread 2 (`true`) or thread 1 (`false`). -/
def raceStep (s : RaceState) (tid : Bool) : RaceState :=
  if tid then
    let r := threadStep s.pc2 s
    { r.2 with pc2 := r.1 }
  else
    let r := threadStep s.pc1 s
    { r.2 with pc1 := r.1 }

/-- Execute a schedule from the initial state. -/
def runRace (sched : List Bool) : RaceState :=
  sched.foldl raceStep raceInit

/-- The registry state after the first (discovery-running) access, used
as the concrete initialized registry of the C2 witness. -/
def initializedRegistry : DependencyRegistry :=
  DependencyRegistry.initializeReg ⟨[("CartRepository", "CartRepositoryImpl")], []⟩
    DependencyRegistry.new

/-! ## Association-list (`dict`) lemmas -/

theorem dictGet_dictSet_self {α : Type} (m : List (String × α)) (k : String) (v : α) :
    dictGet (dictSet m k v) k = some v := by
  induction m with
  | nil => simp [dictSet, dictGet]
  | cons e rest ih =>
    obtain ⟨k0, v0⟩ := e
    by_cases h : k0 = k <;> simp [dictSet, dictGet, h, ih]

theorem dictGet_dictSet_ne {α : Type} (m : List (String × α)) (k k' : String) (v : α)
    (h : k' ≠ k) : dictGet (dictSet m k v) k' = dictGet m k' := by
  have hk : ¬ k = k' := fun he => h he.symm
  induction m with
  | nil => simp [dictSet, dictGet, hk]
  | cons e rest ih =>
    obtain ⟨k0, v0⟩ := e
    by_cases h0 : k0 = k
    · subst h0
      simp [dictSet, dictGet, hk]
    · simp [dictSet, dictGet, h0, ih]

/-! ## Claim theorems: order state machine -/

/-- C4: `Order.confirm` succeeds — transitioning the status from
`PENDING` to `CONFIRMED` and changing nothing else — exactly when the
status is `PENDING`, the item list is non-empty and a shipping address
is set; in every other case (empty items despite an address, missing
address despite items, status not `PENDING`) it raises. -/
theorem order_confirm_characterization (o : Order) :
    (o.confirm = Except.ok { o with status := OrderStatus.confirmed } ↔
      (o.status = OrderStatus.pending ∧ o.items ≠ [] ∧ o.shipping_address ≠ none))
    ∧ ((∃ e, o.confirm = Except.error e) ↔
      ¬ (o.status = OrderStatus.pending ∧ o.items ≠ [] ∧ o.shipping_address ≠ none)) := by
  unfold Order.confirm
  split_ifs with h1 h2 h3 <;> simp_all

/-- C5: `Order.cancel` succeeds — setting the status to `CANCELLED`
unconditionally — exactly from `PENDING`, `CONFIRMED` and `SHIPPED`,
and raises exactly from `DELIVERED` and `CANCELLED`. -/
theorem order_cancel_characterization (o : Order) :
    (o.cancel = Except.ok { o with status := OrderStatus.cancelled } ↔
      (o.status = OrderStatus.pending ∨ o.status = OrderStatus.confirmed ∨
        o.status = OrderStatus.shipped))
    ∧ ((∃ e, o.cancel = Except.error e) ↔
      (o.status = OrderStatus.delivered ∨ o.status = OrderStatus.cancelled)) := by
  obtain ⟨oid, uid, items, addr, st⟩ := o
  cases st <;> simp [Order.cancel]

/-! ## Claim theorems: cart rejection and uniqueness -/

/-- C6: an `add_item` call with non-positive quantity raises
`ValueError("quantity must be positive")` and leaves the cart state
exactly as it was (the exception precedes the assignment to
`self.items`); the service-layer `CartService.add_item` rejects the
same way before touching the repository. -/
theorem add_item_nonpositive_rejected (c : Cart) (db : CartDb) (uid p : String)
    (u q : Int) (h : q ≤ 0) :
    c.add_item_run p u q = (some "quantity must be positive", c)
    ∧ CartService.add_item db uid p u q = Except.error "quantity must be positive" := by
  constructor
  · unfold Cart.add_item_run
    simp [h]
  · unfold CartService.add_item
    simp [h]

theorem add_item_nonpositive_rejected_witness :
    (0 : Int) ≤ 0
    ∧ (Cart.add_item_run ⟨"u", [⟨"a", 1, 5⟩]⟩ "a" 7 0 =
        (some "quantity must be positive", ⟨"u", [⟨"a", 1, 5⟩]⟩)
      ∧ CartService.add_item [] "u" "a" 7 0 = Except.error "quantity must be positive") :=
  ⟨by decide, add_item_nonpositive_rejected ⟨"u", [⟨"a", 1, 5⟩]⟩ [] "u" "a" 7 0 (by decide)⟩

/-- C7: when the cart's item list mentions each product id at most
once, it still does after any `add_item` call — a failing call leaves
the list untouched, a merging call only rewrites the quantity of the
matching entry, and a fresh entry is appended only when its product id
matched nothing. -/
theorem add_item_preserves_unique_product_ids (c : Cart) (p : String) (u q : Int)
    (h : (c.items.map CartItem.product_id).Nodup) :
    (((Cart.add_item_run c p u q).2).items.map CartItem.product_id).Nodup := by
  unfold Cart.add_item_run
  by_cases hq : q ≤ 0
  · simpa [hq] using h
  · simp only [hq, if_false]
    have hmap : (c.items.map (fun item =>
        if item.product_id = p then
          { product_id := item.product_id
            quantity := item.quantity + q
            unit_price := item.unit_price }
        else item)).map CartItem.product_id = c.items.map CartItem.product_id := by
      rw [List.map_map]
      refine List.map_congr_left ?_
      intro item _
      by_cases hp : item.product_id = p <;> simp [hp]
    by_cases hf : (c.items.any (fun item => item.product_id = p)) = true
    · rw [if_pos hf, hmap]
      exact h
    · have hnp : p ∉ c.items.map CartItem.product_id := by
        simp only [List.any_eq_true, decide_eq_true_eq] at hf
        push_neg at hf
        simp only [List.mem_map]
        rintro ⟨item, hitem, rfl⟩
        exact hf item hitem rfl
      rw [if_neg hf, List.map_append, hmap]
      show (c.items.map CartItem.product_id ++ [p]).Nodup
      rw [List.nodup_append]
      refine ⟨h, List.nodup_singleton p, ?_⟩
      intro a ha hb
      simp only [List.mem_singleton] at hb
      exact hnp (hb ▸ ha)

theorem add_item_preserves_unique_product_ids_witness :
    (((⟨"u", [⟨"a", 1, 5⟩]⟩ : Cart).items.map CartItem.product_id).Nodup)
    ∧ (((Cart.add_item_run ⟨"u", [⟨"a", 1, 5⟩]⟩ "a" 7 2).2).items.map
        CartItem.product_id).Nodup :=
  ⟨by decide, add_item_preserves_unique_product_ids ⟨"u", [⟨"a", 1, 5⟩]⟩ "a" 7 2 (by decide)⟩

/-! ## Claim theorems: registry precedence and lazy initialization -/

/-- C2 counterexample: a manual registration made *before* the first
discovery run is discarded.  Concretely, register
`CartRepository ↦ ManualCartRepositoryImpl` on a fresh registry; the
first `get_repository_implementation` call lazily initializes, which
replaces `_repository_map` wholesale with the discovery result, so the
lookup returns the discovered `CartRepositoryImpl` — not the manually
registered implementation the claim promises. -/
theorem manual_registration_before_discovery_lost :
    (DependencyRegistry.get_repository_implementation
        ⟨[("CartRepository", "CartRepositoryImpl")], []⟩
        (DependencyRegistry.register_repository DependencyRegistry.new
          "CartRepository" "ManualCartRepositoryImpl")
        "CartRepository").1 = some "CartRepositoryImpl"
    ∧ (some "CartRepositoryImpl" : Option String) ≠ some "ManualCartRepositoryImpl" := by
  decide

/-- C2 (amended): once the registry is initialized (the discovery scan
has run), a manual `register_repository` call does take precedence:
looking the contract up afterwards returns the manually registered
implementation and performs a pure lookup — the registry state is
unchanged, discovery is not re-run. -/
theorem manual_registration_after_discovery_wins (disc : DiscoveryResult)
    (r : DependencyRegistry) (interface implementation : String)
    (h : r.initialized = true) :
    DependencyRegistry.get_repository_implementation disc
        (r.register_repository interface implementation) interface =
      (some implementation, r.register_repository interface implementation) := by
  unfold DependencyRegistry.get_repository_implementation
    DependencyRegistry.initializeReg DependencyRegistry.register_repository
  simp [h, dictGet_dictSet_self]

theorem manual_registration_after_discovery_wins_witness :
    initializedRegistry.initialized = true
    ∧ DependencyRegistry.get_repository_implementation
        ⟨[("CartRepository", "CartRepositoryImpl")], []⟩
        (initializedRegistry.register_repository
          "CartRepository" "ManualCartRepositoryImpl")
        "CartRepository" =
      (some "ManualCartRepositoryImpl",
        initializedRegistry.register_repository
          "CartRepository" "ManualCartRepositoryImpl") :=
  ⟨by decide,
    manual_registration_after_discovery_wins _ initializedRegistry
      "CartRepository" "ManualCartRepositoryImpl" (by decide)⟩

/-- C3: for a contract with no registered implementation the registry
lookup is `none`, and the factory `get_repository` then raises the
`ValueError` naming the missing implementation — the caller never
receives a null or placeholder instance. -/
theorem unmapped_contract_resolution_fails (env : ResolverEnv) (disc : DiscoveryResult)
    (fuel : Nat) (reg : DependencyRegistry) (t : String)
    (h : (DependencyRegistry.get_repository_implementation disc reg t).1 = none) :
    get_repository env disc fuel reg t =
      Except.error ("No implementation found for repository: " ++ t
        ++ ". Make sure " ++ t ++ "Impl exists in infra/db/repositories/") := by
  unfold get_repository
  simp [h]

theorem unmapped_contract_resolution_fails_witness :
    (DependencyRegistry.get_repository_implementation ⟨[], []⟩ DependencyRegistry.new
        "FooRepository").1 = none
    ∧ get_repository ⟨fun _ => []⟩ ⟨[], []⟩ 5 DependencyRegistry.new "FooRepository" =
      Except.error ("No implementation found for repository: " ++ "FooRepository"
        ++ ". Make sure " ++ "FooRepository" ++ "Impl exists in infra/db/repositories/") :=
  ⟨by decide,
    unmapped_contract_resolution_fails ⟨fun _ => []⟩ ⟨[], []⟩ 5 DependencyRegistry.new
      "FooRepository" (by decide)⟩

/-- C9: the lazy initialization guard is a plain flag with no lock, so
two threads whose first accesses interleave can both pass the
`if self._initialized` check before either sets the flag, and the
discovery scan then runs twice — the schedule
`[thread 1 check, thread 2 check, thread 1 scan, thread 2 scan]`
drives the scan counter to `2`, while a schedule where one thread
finishes `initialize` first (`[thread 1 check, thread 1 scan,
thread 2 check]`) runs it once, as the claim demands. -/
theorem unguarded_lazy_init_race_double_scan :
    (runRace [false, true, false, true]).scanCount = 2
    ∧ (runRace [false, false, true]).scanCount = 1 := by
  decide

/-! ## Claim theorems: empty-cart persistence round trip -/

/-- C10: saving a cart whose item list is empty deletes the user's
rows and inserts nothing, so reloading by the same user id yields
`None` at the repository — while `CartService.get_cart` papers over the
absence by returning a fresh empty cart. -/
theorem empty_cart_save_roundtrip_absent (db : CartDb) (cart : Cart)
    (h : cart.items = []) :
    CartRepositoryImpl.get_by_user_id (CartRepositoryImpl.save db cart) cart.user_id = none
    ∧ CartService.get_cart (CartRepositoryImpl.save db cart) cart.user_id =
      { user_id := cart.user_id, items := [] } := by
  have key : (CartRepositoryImpl.save db cart).filter
      (fun r => r.user_id = cart.user_id) = [] := by
    unfold CartRepositoryImpl.save
    simp only [h, List.map_nil, List.append_nil]
    rw [List.filter_eq_nil_iff]
    intro r hr
    simp only [List.mem_filter, decide_eq_true_eq] at hr
    simpa using hr.2
  have hget : CartRepositoryImpl.get_by_user_id (CartRepositoryImpl.save db cart)
      cart.user_id = none := by
    unfold CartRepositoryImpl.get_by_user_id
    simp [key]
  refine ⟨hget, ?_⟩
  unfold CartService.get_cart
  simp [hget]

/-! ## Cart total algebra (claim C1) -/

theorem mem_dedupFirstAux (p : String) :
    ∀ (l seen : List String), p ∈ dedupFirstAux l seen ↔ p ∈ l ∧ p ∉ seen := by
  intro l
  induction l with
  | nil => intro seen; simp [dedupFirstAux]
  | cons q l ih =>
    intro seen
    by_cases hq : q ∈ seen
    · rw [show dedupFirstAux (q :: l) seen = dedupFirstAux l seen from by
        simp [dedupFirstAux, hq]]
      rw [ih seen]
      simp only [List.mem_cons]
      constructor
      · rintro ⟨h1, h2⟩
        exact ⟨Or.inr h1, h2⟩
      · rintro ⟨rfl | h1, h2⟩
        · exact absurd hq h2
        · exact ⟨h1, h2⟩
    · rw [show dedupFirstAux (q :: l) seen = q :: dedupFirstAux l (q :: seen) from by
        simp [dedupFirstAux, hq]]
      simp only [List.mem_cons, ih (q :: seen)]
      constructor
      · rintro (rfl | ⟨h1, h2⟩)
        · exact ⟨Or.inl rfl, hq⟩
        · exact ⟨Or.inr h1, fun hs => h2 (Or.inr hs)⟩
      · rintro ⟨h1 | h1, h2⟩
        · exact Or.inl h1
        · by_cases hpq : p = q
          · exact Or.inl hpq
          · refine Or.inr ⟨h1, fun hs => ?_⟩
            rcases hs with h3 | h3
            · exact hpq h3
            · exact h2 h3

theorem dedupFirstAux_append_singleton (p : String) :
    ∀ (l seen : List String),
    dedupFirstAux (l ++ [p]) seen =
      if p ∈ l ∨ p ∈ seen then dedupFirstAux l seen
      else dedupFirstAux l seen ++ [p] := by
  intro l
  induction l with
  | nil =>
    intro seen
    by_cases h : p ∈ seen <;> simp [dedupFirstAux, h]
  | cons q l ih =>
    intro seen
    by_cases hq : q ∈ seen
    · simp only [List.cons_append, dedupFirstAux, hq, if_true, List.append_eq]
      rw [ih seen]
      refine if_congr ?_ rfl rfl
      simp only [List.mem_cons]
      constructor
      · rintro (h | h)
        · exact Or.inl (Or.inr h)
        · exact Or.inr h
      · rintro ((rfl | h) | h)
        · exact Or.inr hq
        · exact Or.inl h
        · exact Or.inr h
    · simp only [List.cons_append, dedupFirstAux, hq, if_false, List.append_eq]
      rw [ih (q :: seen)]
      have hcond : (p ∈ l ∨ p ∈ q :: seen) ↔ (p ∈ q :: l ∨ p ∈ seen) := by
        simp only [List.mem_cons]
        constructor
        · rintro (h | rfl | h)
          · exact Or.inl (Or.inr h)
          · exact Or.inl (Or.inl rfl)
          · exact Or.inr h
        · rintro ((rfl | h) | h)
          · exact Or.inr (Or.inl rfl)
          · exact Or.inl h
          · exact Or.inr (Or.inr h)
      by_cases hp : p ∈ q :: l ∨ p ∈ seen
      · rw [if_pos (hcond.mpr hp), if_pos hp]
      · rw [if_neg (fun hx => hp (hcond.mp hx)), if_neg hp]

theorem dedupFirst_append_singleton (l : List String) (p : String) :
    dedupFirst (l ++ [p]) =
      if p ∈ l then dedupFirst l else dedupFirst l ++ [p] := by
  unfold dedupFirst
  rw [dedupFirstAux_append_singleton]
  refine if_congr ?_ rfl rfl
  simp

theorem mem_dedupFirst (l : List String) (p : String) : p ∈ dedupFirst l ↔ p ∈ l := by
  unfold dedupFirst
  rw [mem_dedupFirstAux]
  simp

theorem totalQuantity_append (calls : List AddCall) (a : AddCall) (p : String) :
    totalQuantity (calls ++ [a]) p =
      totalQuantity calls p + (if a.product_id = p then a.quantity else 0) := by
  unfold totalQuantity
  rw [List.filter_append, List.map_append, List.sum_append]
  congr 1
  by_cases h : a.product_id = p <;> simp [h]

theorem totalQuantity_not_mem (calls : List AddCall) (p : String)
    (h : p ∉ calls.map AddCall.product_id) : totalQuantity calls p = 0 := by
  unfold totalQuantity
  have hnil : calls.filter (fun b => b.product_id = p) = [] := by
    rw [List.filter_eq_nil_iff]
    intro x hx
    simp only [decide_eq_true_eq]
    intro he
    exact h (List.mem_map.mpr ⟨x, hx, he⟩)
  rw [hnil]
  rfl

theorem firstUnitPrice_append_mem (calls : List AddCall) (a : AddCall) (p : String)
    (h : p ∈ calls.map AddCall.product_id) :
    firstUnitPrice (calls ++ [a]) p = firstUnitPrice calls p := by
  unfold firstUnitPrice
  obtain ⟨x, hx, hpx⟩ := List.mem_map.mp h
  have hs : (calls.find? (fun b => b.product_id = p)).isSome := by
    rw [List.find?_isSome]
    exact ⟨x, hx, by simp [hpx]⟩
  obtain ⟨b, hb⟩ := Option.isSome_iff_exists.mp hs
  rw [List.find?_append, hb]
  rfl

theorem firstUnitPrice_append_new (calls : List AddCall) (a : AddCall)
    (h : a.product_id ∉ calls.map AddCall.product_id) :
    firstUnitPrice (calls ++ [a]) a.product_id = a.unit_price := by
  unfold firstUnitPrice
  have hnone : calls.find? (fun b => b.product_id = a.product_id) = none := by
    rw [List.find?_eq_none]
    intro x hx
    simp only [decide_eq_true_eq]
    intro he
    exact h (List.mem_map.mpr ⟨x, hx, he⟩)
  rw [List.find?_append, hnone]
  simp [List.find?]

theorem map_product_id_canonicalItems (calls : List AddCall) :
    (canonicalItems calls).map CartItem.product_id =
      dedupFirst (calls.map AddCall.product_id) := by
  unfold canonicalItems
  rw [List.map_map]
  rw [show (CartItem.product_id ∘ fun p =>
      ({ product_id := p
         quantity := totalQuantity calls p
         unit_price := firstUnitPrice calls p } : CartItem)) = id from rfl]
  exact List.map_id _

theorem add_item_run_pos (c : Cart) (p : String) (u q : Int) (h : ¬ q ≤ 0) :
    c.add_item_run p u q =
      (none,
        { c with items :=
            if c.items.any (fun item => item.product_id = p) then
              c.items.map (fun item =>
                if item.product_id = p then
                  { product_id := item.product_id
                    quantity := item.quantity + q
                    unit_price := item.unit_price }
                else item)
            else
              c.items.map (fun item =>
                if item.product_id = p then
                  { product_id := item.product_id
                    quantity := item.quantity + q
                    unit_price := item.unit_price }
                else item) ++ [{ product_id := p
                                 quantity := q
                                 unit_price := u }] }) := by
  unfold Cart.add_item_run
  rw [if_neg h]

theorem canonicalItems_append (calls : List AddCall) (a : AddCall) :
    canonicalItems (calls ++ [a]) =
      if (canonicalItems calls).any (fun item => item.product_id = a.product_id) then
        (canonicalItems calls).map (fun item =>
          if item.product_id = a.product_id then
            { product_id := item.product_id
              quantity := item.quantity + a.quantity
              unit_price := item.unit_price }
          else item)
      else
        (canonicalItems calls).map (fun item =>
          if item.product_id = a.product_id then
            { product_id := item.product_id
              quantity := item.quantity + a.quantity
              unit_price := item.unit_price }
          else item) ++ [{ product_id := a.product_id
                           quantity := a.quantity
                           unit_price := a.unit_price }] := by
  by_cases hmem : a.product_id ∈ calls.map AddCall.product_id
  · have hfound : (canonicalItems calls).any
        (fun item => item.product_id = a.product_id) = true := by
      rw [List.any_eq_true]
      have hm : a.product_id ∈ (canonicalItems calls).map CartItem.product_id := by
        rw [map_product_id_canonicalItems, mem_dedupFirst]
        exact hmem
      obtain ⟨item, hitem, hpid⟩ := List.mem_map.mp hm
      exact ⟨item, hitem, by simp [hpid]⟩
    rw [if_pos hfound]
    unfold canonicalItems
    rw [List.map_map, List.map_append]
    simp only [List.map_cons, List.map_nil]
    rw [dedupFirst_append_singleton, if_pos hmem]
    refine List.map_congr_left ?_
    intro p hp
    have hpmem : p ∈ calls.map AddCall.product_id := (mem_dedupFirst _ _).mp hp
    by_cases hpq : p = a.product_id
    · subst hpq
      simp [totalQuantity_append, firstUnitPrice_append_mem _ _ _ hpmem]
    · have hqp : ¬ a.product_id = p := fun he => hpq he.symm
      simp [totalQuantity_append, firstUnitPrice_append_mem _ _ _ hpmem, hpq, hqp]
  · have hfound : ¬ ((canonicalItems calls).any
        (fun item => item.product_id = a.product_id) = true) := by
      rw [List.any_eq_true]
      rintro ⟨item, hitem, hpid⟩
      simp only [decide_eq_true_eq] at hpid
      apply hmem
      have hm : item.product_id ∈ (canonicalItems calls).map CartItem.product_id :=
        List.mem_map_of_mem _ hitem
      rw [map_product_id_canonicalItems, mem_dedupFirst] at hm
      exact hpid ▸ hm
    rw [if_neg hfound]
    unfold canonicalItems
    rw [List.map_map, List.map_append]
    simp only [List.map_cons, List.map_nil]
    rw [dedupFirst_append_singleton, if_neg hmem, List.map_append]
    congr 1
    · refine List.map_congr_left ?_
      intro p hp
      have hpmem : p ∈ calls.map AddCall.product_id := (mem_dedupFirst _ _).mp hp
      have hpq : ¬ p = a.product_id := fun he => hmem (he ▸ hpmem)
      have hqp : ¬ a.product_id = p := fun he => hpq he.symm
      simp [totalQuantity_append, firstUnitPrice_append_mem _ _ _ hpmem, hpq, hqp]
    · simp [totalQuantity_append, totalQuantity_not_mem _ _ hmem,
        firstUnitPrice_append_new _ _ hmem]

theorem add_item_canonical_step (uid : String) (calls : List AddCall) (a : AddCall)
    (h : 0 < a.quantity) :
    Cart.add_item ⟨uid, canonicalItems calls⟩ a.product_id a.unit_price a.quantity =
      Except.ok ⟨uid, canonicalItems (calls ++ [a])⟩ := by
  have hq : ¬ a.quantity ≤ 0 := not_le.mpr h
  unfold Cart.add_item
  rw [add_item_run_pos _ _ _ _ hq, canonicalItems_append]

theorem applyCalls_canonical (uid : String) :
    ∀ (calls2 calls1 : List AddCall), (∀ a ∈ calls2, 0 < a.quantity) →
    applyCalls calls2 ⟨uid, canonicalItems calls1⟩ =
      Except.ok ⟨uid, canonicalItems (calls1 ++ calls2)⟩ := by
  intro calls2
  induction calls2 with
  | nil =>
    intro calls1 _
    simp [applyCalls]
  | cons a rest ih =>
    intro calls1 hpos
    have ha : 0 < a.quantity := hpos a (List.mem_cons_self a rest)
    rw [show applyCalls (a :: rest) ⟨uid, canonicalItems calls1⟩ =
        (match Cart.add_item ⟨uid, canonicalItems calls1⟩ a.product_id a.unit_price
            a.quantity with
          | Except.ok c1 => applyCalls rest c1
          | Except.error e => Except.error e) from rfl]
    rw [add_item_canonical_step uid calls1 a ha]
    rw [show (calls1 ++ a :: rest) = ((calls1 ++ [a]) ++ rest) from
      List.append_cons calls1 a rest]
    exact ih (calls1 ++ [a]) (fun b hb => hpos b (List.mem_cons_of_mem a hb))

theorem total_amount_canonicalItems (uid : String) (calls : List AddCall) :
    Cart.total_amount ⟨uid, canonicalItems calls⟩ = specTotal calls := by
  unfold Cart.total_amount canonicalItems specTotal
  rw [List.map_map]
  refine congrArg List.sum (List.map_congr_left ?_)
  intro p _
  show firstUnitPrice calls p * totalQuantity calls p =
    totalQuantity calls p * firstUnitPrice calls p
  exact mul_comm _ _

/-- C1: applying any sequence of `add_item` calls with positive
quantities to an empty cart succeeds, and the resulting
`total_amount` is the sum, over the distinct product ids of the
sequence, of the total quantity added for that id times the unit price
of the *first* call for that id — later unit prices for an existing
product are ignored by the merge. -/
theorem cart_total_first_unit_price (uid : String) (calls : List AddCall)
    (hpos : ∀ a ∈ calls, 0 < a.quantity) :
    (applyCalls calls ⟨uid, []⟩).toOption.map Cart.total_amount =
      some (specTotal calls) := by
  have h1 : applyCalls calls ⟨uid, []⟩ = Except.ok ⟨uid, canonicalItems calls⟩ := by
    have h2 := applyCalls_canonical uid calls [] hpos
    rw [List.nil_append] at h2
    exact h2
  rw [h1]
  show some (Cart.total_amount ⟨uid, canonicalItems calls⟩) = some (specTotal calls)
  rw [total_amount_canonicalItems]

theorem cart_total_first_unit_price_witness :
    (∀ a ∈ [(⟨"a", 100, 2⟩ : AddCall), ⟨"b", 50, 1⟩, ⟨"a", 999, 3⟩], 0 < a.quantity)
    ∧ (applyCalls [⟨"a", 100, 2⟩, ⟨"b", 50, 1⟩, ⟨"a", 999, 3⟩]
        ⟨"u", []⟩).toOption.map Cart.total_amount =
      some (specTotal [⟨"a", 100, 2⟩, ⟨"b", 50, 1⟩, ⟨"a", 999, 3⟩])
    ∧ specTotal [⟨"a", 100, 2⟩, ⟨"b", 50, 1⟩, ⟨"a", 999, 3⟩] = 550 :=
  ⟨by decide, cart_total_first_unit_price "u" _ (by decide), by decide⟩

theorem empty_cart_save_roundtrip_absent_witness :
    (⟨"u", []⟩ : Cart).items = []
    ∧ (CartRepositoryImpl.get_by_user_id
        (CartRepositoryImpl.save [⟨"u", "a", 1, 5⟩] ⟨"u", []⟩) "u" = none
      ∧ CartService.get_cart (CartRepositoryImpl.save [⟨"u", "a", 1, 5⟩] ⟨"u", []⟩) "u" =
        { user_id := "u", items := [] }) :=
  ⟨rfl, empty_cart_save_roundtrip_absent [⟨"u", "a", 1, 5⟩] ⟨"u", []⟩ rfl⟩

/-! ## Resolver memoization (claim C8) -/

theorem mem_resolveServiceParams_names
    (resolve : String → RState → Option Obj × RState) :
    ∀ (ps : List (String × Option String)) (s : RState) (p : String) (v : Obj),
      (p, v) ∈ (resolveServiceParamsWith resolve ps s).1 → p ∈ ps.map Prod.fst := by
  intro ps
  induction ps with
  | nil =>
    intro s p v h
    simp [resolveServiceParamsWith] at h
  | cons e rest ih =>
    obtain ⟨n, ann⟩ := e
    cases ann with
    | none =>
      intro s p v h
      simp only [resolveServiceParamsWith] at h
      exact List.mem_cons_of_mem n (ih s p v h)
    | some t =>
      intro s p v h
      simp only [resolveServiceParamsWith] at h
      cases hd : (resolve t s).1 with
      | none =>
        rw [hd] at h
        exact List.mem_cons_of_mem n (ih _ p v h)
      | some w =>
        rw [hd] at h
        rcases List.mem_cons.mp h with he | h2
        · exact List.mem_cons.mpr (Or.inl (congrArg Prod.fst he))
        · exact List.mem_cons_of_mem n (ih _ p v h2)

theorem createParamsWith_preserves
    (resolve : String → RState → Option Obj × RState)
    (hres : ∀ t k v s, dictGet s.cache k = some v →
      dictGet (resolve t s).2.cache k = some v) :
    ∀ (ps : List (String × Option String)) (k : String) (v : Obj) (s : RState),
      dictGet s.cache k = some v →
      dictGet (createParamsWith resolve ps s).2.cache k = some v := by
  intro ps
  induction ps with
  | nil =>
    intro k v s h
    simpa [createParamsWith] using h
  | cons e rest ih =>
    obtain ⟨n, ann⟩ := e
    cases ann with
    | none =>
      intro k v s h
      simpa only [createParamsWith] using ih k v s h
    | some t =>
      intro k v s h
      by_cases hS : t = "Session"
      · simp only [createParamsWith, hS, if_true]
        exact ih k v s h
      · simp only [createParamsWith, hS, if_false]
        exact ih k v (resolve t s).2 (hres t k v s h)

theorem resolveServiceParamsWith_preserves
    (resolve : String → RState → Option Obj × RState)
    (hres : ∀ t k v s, dictGet s.cache k = some v →
      dictGet (resolve t s).2.cache k = some v) :
    ∀ (ps : List (String × Option String)) (k : String) (v : Obj) (s : RState),
      dictGet s.cache k = some v →
      dictGet (resolveServiceParamsWith resolve ps s).2.cache k = some v := by
  intro ps
  induction ps with
  | nil =>
    intro k v s h
    simpa [resolveServiceParamsWith] using h
  | cons e rest ih =>
    obtain ⟨n, ann⟩ := e
    cases ann with
    | none =>
      intro k v s h
      simpa only [resolveServiceParamsWith] using ih k v s h
    | some t =>
      intro k v s h
      simp only [resolveServiceParamsWith]
      exact ih k v (resolve t s).2 (hres t k v s h)

theorem resolveDep_preserves (env : ResolverEnv) (disc : DiscoveryResult) :
    ∀ (fuel : Nat) (t k : String) (v : Obj) (s : RState),
      dictGet s.cache k = some v →
      dictGet (resolveDep env disc fuel t s).2.cache k = some v := by
  intro fuel
  induction fuel with
  | zero =>
    intro t k v s h
    simpa [resolveDep] using h
  | succ fuel ih =>
    intro t k v s h
    cases hc : dictGet s.cache t with
    | some w =>
      simpa only [resolveDep, hc] using h
    | none =>
      by_cases hS : t = "Session"
      · subst hS
        simpa [resolveDep, hc] using h
      · simp only [resolveDep, hc, hS, if_false]
        cases hg : (DependencyRegistry.get_repository_implementation disc s.reg t).1 with
        | none =>
          dsimp only
          exact h
        | some impl =>
          dsimp only
          have hkt : k ≠ t := by
            intro he
            rw [he, hc] at h
            cases h
          rw [dictGet_dictSet_ne _ _ _ _ hkt]
          unfold createRepositoryInstanceWith
          dsimp only
          exact createParamsWith_preserves _ (fun t1 k1 v1 s1 h1 => ih t1 k1 v1 s1 h1)
            _ k v _ h

theorem resolveDep_caches (env : ResolverEnv) (disc : DiscoveryResult)
    (fuel : Nat) (t : String) (s : RState) (v : Obj)
    (hS : t ≠ "Session") (h : (resolveDep env disc fuel t s).1 = some v) :
    dictGet (resolveDep env disc fuel t s).2.cache t = some v := by
  cases fuel with
  | zero => simp [resolveDep] at h
  | succ fuel =>
    cases hc : dictGet s.cache t with
    | some w =>
      simp only [resolveDep, hc] at h ⊢
      exact h
    | none =>
      simp only [resolveDep, hc, hS, if_false] at h ⊢
      cases hg : (DependencyRegistry.get_repository_implementation disc s.reg t).1 with
      | none =>
        rw [hg] at h
        dsimp only at h
        cases h
      | some impl =>
        rw [hg] at h
        dsimp only at h ⊢
        rw [dictGet_dictSet_self]
        exact h

theorem resolveServiceParams_value_cached (env : ResolverEnv) (disc : DiscoveryResult)
    (fuel : Nat) :
    ∀ (ps : List (String × Option String)) (s : RState) (p T : String) (v : Obj),
      (ps.map Prod.fst).Nodup → T ≠ "Session" → (p, some T) ∈ ps →
      (p, v) ∈ (resolveServiceParamsWith (resolveDep env disc fuel) ps s).1 →
      dictGet (resolveServiceParamsWith (resolveDep env disc fuel) ps s).2.cache T
        = some v := by
  intro ps
  induction ps with
  | nil =>
    intro s p T v _ _ hmem _
    simp at hmem
  | cons e rest ih =>
    obtain ⟨n, ann⟩ := e
    intro s p T v hnodup hS hmem hval
    simp only [List.map_cons, List.nodup_cons] at hnodup
    cases ann with
    | none =>
      rcases List.mem_cons.mp hmem with he | hmem2
      · simp at he
      · simp only [resolveServiceParamsWith] at hval ⊢
        exact ih s p T v hnodup.2 hS hmem2 hval
    | some t =>
      rcases List.mem_cons.mp hmem with he | hmem2
      · have hp : p = n := congrArg Prod.fst he
        have ht : T = t := Option.some.inj (congrArg Prod.snd he)
        subst hp
        subst ht
        simp only [resolveServiceParamsWith] at hval ⊢
        cases hd : (resolveDep env disc fuel T s).1 with
        | none =>
          rw [hd] at hval
          dsimp only at hval ⊢
          exact absurd (mem_resolveServiceParams_names _ rest _ p v hval) hnodup.1
        | some w =>
          rw [hd] at hval
          dsimp only at hval ⊢
          rcases List.mem_cons.mp hval with he2 | hval2
          · have hvw : v = w := congrArg Prod.snd he2
            subst hvw
            have hB := resolveDep_caches env disc fuel T s v hS hd
            exact resolveServiceParamsWith_preserves _
              (fun t1 k1 v1 s1 h1 => resolveDep_preserves env disc fuel t1 k1 v1 s1 h1)
              rest T v _ hB
          · exact absurd (mem_resolveServiceParams_names _ rest _ p v hval2) hnodup.1
      · have hpn : p ∈ rest.map Prod.fst :=
          List.mem_map.mpr ⟨(p, some T), hmem2, rfl⟩
        simp only [resolveServiceParamsWith] at hval ⊢
        cases hd : (resolveDep env disc fuel t s).1 with
        | none =>
          rw [hd] at hval
          dsimp only at hval ⊢
          exact ih _ p T v hnodup.2 hS hmem2 hval
        | some w =>
          rw [hd] at hval
          dsimp only at hval ⊢
          rcases List.mem_cons.mp hval with he2 | hval2
          · have : n = p := (congrArg Prod.fst he2).symm
            exact absurd (this ▸ hpn) hnodup.1
          · exact ih _ p T v hnodup.2 hS hmem2 hval2

/-- C8: within one resolver, two constructor parameters of the same
service declaring the same (non-`Session`) repository contract type
are bound to the same object reference: the first resolution memoizes
the constructed instance in `_cache` under the declared type, the
second edge is a cache hit, and no later step overwrites the entry. -/
theorem resolver_memoization_shared_instance (env : ResolverEnv)
    (disc : DiscoveryResult) (fuel : Nat) (service_class : String) (s : RState)
    (p1 p2 T : String) (v1 v2 : Obj)
    (hnodup : ((env.ctorParams service_class).map Prod.fst).Nodup)
    (hS : T ≠ "Session")
    (hp1 : (p1, some T) ∈ env.ctorParams service_class)
    (hp2 : (p2, some T) ∈ env.ctorParams service_class)
    (hv1 : (p1, v1) ∈ (resolve_service_dependencies env disc fuel service_class s).1)
    (hv2 : (p2, v2) ∈ (resolve_service_dependencies env disc fuel service_class s).1) :
    v1 = v2 := by
  have h1 := resolveServiceParams_value_cached env disc fuel
    (env.ctorParams service_class) s p1 T v1 hnodup hS hp1 hv1
  have h2 := resolveServiceParams_value_cached env disc fuel
    (env.ctorParams service_class) s p2 T v2 hnodup hS hp2 hv2
  exact Option.some.inj (h1.symm.trans h2)

theorem resolver_memoization_shared_instance_witness :
    ((twoRepoEnv.ctorParams "TwoRepoService").map Prod.fst).Nodup
    ∧ ("repo_a", some "CartRepository") ∈ twoRepoEnv.ctorParams "TwoRepoService"
    ∧ ("repo_b", some "CartRepository") ∈ twoRepoEnv.ctorParams "TwoRepoService"
    ∧ (resolve_service_dependencies twoRepoEnv ⟨[], []⟩ 3 "TwoRepoService"
        twoRepoState).1 = [("repo_a", Obj.inst 0), ("repo_b", Obj.inst 0)]
    ∧ Obj.inst 0 = Obj.inst 0 :=
  ⟨by decide, by decide, by decide, by decide,
    resolver_memoization_shared_instance twoRepoEnv ⟨[], []⟩ 3 "TwoRepoService"
      twoRepoState "repo_a" "repo_b" "CartRepository" (Obj.inst 0) (Obj.inst 0)
      (by decide) (by decide) (by decide) (by decide) (by decide) (by decide)⟩
